import Mathlib

/-!
Verification development for the session-lifecycle backend.

The definitions below are a shallow embedding of the backend's
session-lifecycle subsystem:

* `_generate_slug` from `app/api/projects.py` (identical copy in
  `app/api/research.py`) becomes `generateSlug`, modelled character by
  character over `List Char`; Python's `str.lower` / `str.strip` and the
  three `re.sub` passes become explicit list transformations.  Python's
  `lower` and `\s` act on ASCII here (the regex `[^a-z0-9\s-]` discards
  every non-ASCII character after lowering, so only the six ASCII
  whitespace code points can survive into the later passes).
* `TmuxManager` from `app/services/tmux.py` becomes operations on a list
  of live session names plus a name-to-pane-text map for `capture_pane`
  (`capture-pane` on a missing session yields empty stdout).
* `CodingAgentLoop._claude_code_waiting_for_input` and
  `_monitor_until_done` from `app/services/coding_agent.py` become
  `claudeCodeWaitingForInput` and `monitorUntilDone`; the monitor loop is
  modelled over an abstract stream `cap : Nat → String` of successive
  pane captures (poll `i` happens at elapsed time `2 * i`), instrumented
  with the index of the last poll and an early-stop flag.
* The websocket terminal bridge `project_terminal` from `app/api/ws.py`
  becomes `bridgeRun` over a trace of `(session_exists, captured_text)`
  observations, one per loop iteration.
* The API handlers of `app/api/projects.py` and `app/api/research.py`
  become state transformers on a `World` record holding the relational
  store, the live tmux session names and the filesystem directories.
  Timestamps (`datetime.utcnow()`) are abstract `Nat` clock values passed
  in by the caller; row ids come from a single fresh-id counter.
-/

deriving instance DecidableEq for Except

namespace Autocode

/-- The six ASCII whitespace characters recognised by Python's `str.strip()`
and by `\s` in the slug regexes: space (32), tab (9), newline (10),
CR (13), VT (11), FF (12). -/
def isPySpace (c : Char) : Bool :=
  c.toNat = 32 || c.toNat = 9 || c.toNat = 10 || c.toNat = 13 ||
    c.toNat = 11 || c.toNat = 12

/-- ASCII lowering, the effect of Python's `str.lower` on ASCII letters. -/
def pyLowerChar (c : Char) : Char :=
  if 65 ≤ c.toNat && c.toNat ≤ 90 then Char.ofNat (c.toNat + 32) else c

/-- Lowercase ASCII letter or ASCII digit: the characters the slug regex
`[^a-z0-9\s-]` keeps besides whitespace and dashes. -/
def isLowerAlnum (c : Char) : Bool :=
  (97 ≤ c.toNat && c.toNat ≤ 122) || (48 ≤ c.toNat && c.toNat ≤ 57)

/-- ASCII alphanumeric character (either case), used to state the
"name contains no alphanumeric characters" hypothesis. -/
def isPyAlnum (c : Char) : Bool :=
  (97 ≤ c.toNat && c.toNat ≤ 122) || (65 ≤ c.toNat && c.toNat ≤ 90) ||
    (48 ≤ c.toNat && c.toNat ≤ 57)

/-- Characters surviving `re.sub(r"[^a-z0-9\s-]", "", slug)`. -/
def isKeptChar (c : Char) : Bool :=
  isLowerAlnum c || isPySpace c || c = '-'

/-- Characters that can appear in a finished slug. -/
def isSlugChar (c : Char) : Bool :=
  isLowerAlnum c || c = '-'

/-- Remove trailing characters satisfying `p` (one end of Python `strip`). -/
def stripEnd (p : Char → Bool) (l : List Char) : List Char :=
  (l.reverse.dropWhile p).reverse

/-- Remove leading and trailing characters satisfying `p`
(Python `str.strip` / `str.strip("-")`). -/
def stripBoth (p : Char → Bool) (l : List Char) : List Char :=
  stripEnd p (l.dropWhile p)

/-- Replace every maximal run of characters satisfying `p` by the single
character `rep`, the effect of `re.sub(r"[\s]+", "-", slug)` and
`re.sub(r"-+", "-", slug)`.  The boolean flag records whether the previous
character belonged to a run. -/
def collapseRuns (p : Char → Bool) (rep : Char) : Bool → List Char → List Char
  | _, [] => []
  | inRun, c :: cs =>
    if p c then
      match inRun with
      | true => collapseRuns p rep true cs
      | false => rep :: collapseRuns p rep true cs
    else c :: collapseRuns p rep false cs

/-- `_generate_slug` from `app/api/projects.py`, on character lists:
lower, strip whitespace, drop characters outside `[a-z0-9\s-]`, turn
whitespace runs into `-`, collapse dash runs, strip dashes. -/
def generateSlugChars (l : List Char) : List Char :=
  let s1 := stripBoth isPySpace (l.map pyLowerChar)
  let s2 := s1.filter isKeptChar
  let s3 := collapseRuns isPySpace '-' false s2
  let s4 := collapseRuns (fun c => c = '-') '-' false s3
  stripBoth (fun c => c = '-') s4

/-- `_generate_slug` on strings. -/
def generateSlug (name : String) : String :=
  ⟨generateSlugChars name.data⟩

/-- Python `str.split("\n")` on character lists: `""` splits to `[""]`,
a trailing newline yields a trailing empty line. -/
def splitLines : List Char → List (List Char)
  | [] => [[]]
  | c :: cs =>
    let r := splitLines cs
    if c = '\n' then [] :: r
    else
      match r with
      | [] => [[c]]
      | x :: xs => (c :: x) :: xs

/-- `TmuxManager.capture_pane`: the pane text of a live session, empty
stdout when no session with that name exists. -/
def capturePane (panes : List (String × String)) (name : String) : String :=
  match panes.find? (fun q => q.1 = name) with
  | some q => q.2
  | none => ""

/-- `CodingAgentLoop._claude_code_waiting_for_input`: strip the captured
text, split into lines, strip the last line, and test whether it ends in
`>`, `❯` or `$`.  The three suffixes are single characters, so
`str.endswith` is a last-character test. -/
def claudeCodeWaitingForInput (output : String) : Bool :=
  let lines := splitLines (stripBoth isPySpace output.data)
  match lines with
  | [] => false
  | ls =>
    let last := stripBoth isPySpace (ls.getLastD [])
    match last.getLast? with
    | some c => c = '>' || c = '❯' || c = '$'
    | none => false

/-- The loop body of `CodingAgentLoop._monitor_until_done`, instrumented
with the current poll index `i`; `fuel` is the number of polls still
allowed by the timeout, `last` is the previous capture (`last_output`),
`ncc` is `no_change_count`.  The result carries the returned pane text,
the index of the last poll performed, and whether the loop stopped
before the timeout. -/
def monitorGo (cap : Nat → String) : Nat → Nat → String → Nat → String × Nat × Bool
  | 0, i, last, _ => (last, i, false)
  | fuel + 1, i, last, ncc =>
    let output := cap i
    if claudeCodeWaitingForInput output then (output, i, true)
    else if output = last then
      if 150 < ncc + 1 then (output, i, true)
      else monitorGo cap fuel (i + 1) last (ncc + 1)
    else monitorGo cap fuel (i + 1) output 0

/-- Number of loop iterations permitted by a timeout: polls happen while
`elapsed < timeout` with `elapsed` advancing by 2 per poll, so poll `i`
runs exactly when `2 * i < timeout`. -/
def monitorIters (timeout : Nat) : Nat :=
  (timeout + 1) / 2

/-- `CodingAgentLoop._monitor_until_done` (default timeout 300 in the
source); starts with `last_output = ""` and `no_change_count = 0`. -/
def monitorUntilDone (cap : Nat → String) (timeout : Nat) : String × Nat × Bool :=
  monitorGo cap (monitorIters timeout) 0 "" 0

/-- The capture preceding poll `i`: the initial `last_output = ""` before
the first poll, afterwards the previous poll's text. -/
def prevCap (cap : Nat → String) : Nat → String
  | 0 => ""
  | i + 1 => cap i

/-- Specification of `no_change_count` as held when poll `i` begins:
the number of consecutive immediately-preceding polls whose text matched
the capture before them. -/
def staleCount (cap : Nat → String) : Nat → Nat
  | 0 => 0
  | i + 1 => if cap i = prevCap cap i then staleCount cap i + 1 else 0

/-- One iteration of the `project_terminal` streaming loop in
`app/api/ws.py`: given the last text sent and an observation
`(session_exists, captured_text)`, return the new `last_output` and the
messages sent this iteration. -/
def bridgeStep (last : String) (obs : Bool × String) : String × List String :=
  if obs.1 then
    if obs.2 = last then (last, [])
    else (obs.2, [obs.2])
  else (last, [])

/-- The `project_terminal` loop over a finite trace of observations,
returning the list of messages sent at each iteration. -/
def bridgeRun (last : String) : List (Bool × String) → List (List String)
  | [] => []
  | obs :: rest =>
    let r := bridgeStep last obs
    r.2 :: bridgeRun r.1 rest

/-- The `last_output` value after the bridge has consumed a trace. -/
def bridgeLast (last : String) : List (Bool × String) → String
  | [] => last
  | obs :: rest => bridgeLast (bridgeStep last obs).1 rest

/-! ## The relational store, tmux state and filesystem state -/

/-- An authenticated user (`app/models/user.py`, fields used here). -/
structure UserRec where
  id : Nat
  username : String
deriving DecidableEq, Repr

/-- An agent row (`app/models/agent.py`, fields used by the ownership
checks of the project/research handlers). -/
structure AgentRec where
  id : Nat
  user_id : Nat
deriving DecidableEq, Repr

/-- A `projects` row (`app/models/project.py`); timestamps are abstract
clock values. -/
structure Project where
  id : Nat
  user_id : Nat
  agent_id : Nat
  name : String
  slug : String
  description : String
  architecture : String
  implementation_plan : String
  status : String
  current_step : Nat
  tmux_session : String
  workspace_path : String
  created_at : Nat
  updated_at : Nat
deriving DecidableEq, Repr

/-- A `research_sessions` row (`app/models/research.py`). -/
structure ResearchSession where
  id : Nat
  user_id : Nat
  agent_id : Nat
  name : String
  slug : String
  status : String
  tmux_session : String
  workspace_path : String
  created_at : Nat
  updated_at : Nat
deriving DecidableEq, Repr

/-- A `chat_messages` row (`app/models/common.py`). -/
structure ChatMessage where
  id : Nat
  user_id : Nat
  session_type : String
  session_id : Nat
  role : String
  content : String
  created_at : Nat
deriving DecidableEq, Repr

/-- An `agent_instances` row (`app/models/common.py`). -/
structure AgentInstance where
  id : Nat
  user_id : Nat
  agent_id : Nat
  project_id : Option Nat
  pid : Option Nat
  status : String
  started_at : Option Nat
  stopped_at : Option Nat
deriving DecidableEq, Repr

/-- The whole observable state: the relational store, the set of live
tmux session names, and the set of existing workspace directories.
Row ids come from the shared counter `nextId`. -/
structure World where
  agents : List AgentRec
  projects : List Project
  research : List ResearchSession
  instances : List AgentInstance
  messages : List ChatMessage
  sessions : List String
  dirs : List String
  nextId : Nat
deriving DecidableEq, Repr

/-- `settings.data_dir` from `app/config.py`. -/
def dataDir : String := "/data/users"

/-- Workspace directory chosen by `create_project`. -/
def projectWorkspacePath (username slug : String) : String :=
  dataDir ++ "/" ++ username ++ "/projects/" ++ slug

/-- Workspace directory chosen by `create_research_session`. -/
def researchWorkspacePath (username slug : String) : String :=
  dataDir ++ "/" ++ username ++ "/research/" ++ slug

/-- Tmux session name chosen by `create_project`:
`f"{user.username}-{slug}"`. -/
def projectTmuxName (username slug : String) : String :=
  username ++ "-" ++ slug

/-- `Path.mkdir(parents=True, exist_ok=True)` at directory granularity. -/
def mkdirP (path : String) (dirs : List String) : List String :=
  if path ∈ dirs then dirs else path :: dirs

/-- Is `d` the directory `path` or a directory below it? -/
def underPath (path d : String) : Bool :=
  path.data.isPrefixOf d.data

/-- `shutil.rmtree`: removes the directory and everything below it. -/
def rmTree (path : String) (dirs : List String) : List String :=
  dirs.filter (fun d => !(underPath path d))

/-- `TmuxManager.kill_session`: best-effort removal by name, a no-op when
the session does not exist. -/
def killSession (name : String) (sessions : List String) : List String :=
  sessions.filter (fun s => s ≠ name)

/-- `_get_project_or_404`: fetch by id, then require the requesting user
to own the row. -/
def findProject (w : World) (pid uid : Nat) : Option Project :=
  w.projects.find? (fun p => p.id = pid && p.user_id = uid)

/-- `_get_session_or_404` of the research API. -/
def findResearch (w : World) (sid uid : Nat) : Option ResearchSession :=
  w.research.find? (fun r => r.id = sid && r.user_id = uid)

/-- `_get_agent_or_404`. -/
def findAgent (w : World) (agentId uid : Nat) : Option AgentRec :=
  w.agents.find? (fun a => a.id = agentId && a.user_id = uid)

/-!
Each handler becomes a function `World → ... → World × Except String α`.
On an `HTTPException` the store is never committed, so the returned
`World` carries only the external effects performed before the raise
(none, for the precondition failures modelled here).  The identity /
config files written inside a workspace are below directory granularity
and are not modelled; neither is the pane text change caused by
`send_keys` (the pane is only ever observed through `capture_pane`,
modelled separately over capture streams).
-/

/-- `create_project` (`app/api/projects.py`): agent ownership check,
slug derivation with rejection of empty slugs, workspace creation, then
the new row with `status="created"` and the derived tmux session name.
No tmux session is started and no uniqueness check is performed. -/
def createProject (w : World) (user : UserRec) (agentId : Nat)
    (name description : String) (architecture : Option String) (now : Nat) :
    World × Except String Project :=
  match findAgent w agentId user.id with
  | none => (w, .error "Agent not found")
  | some _ =>
    let slug := generateSlug name
    if slug = "" then (w, .error "Invalid project name")
    else
      let workspace := projectWorkspacePath user.username slug
      let p : Project :=
        { id := w.nextId, user_id := user.id, agent_id := agentId,
          name := name, slug := slug, description := description,
          architecture := architecture.getD "",
          implementation_plan := "[]", status := "created",
          current_step := 0,
          tmux_session := projectTmuxName user.username slug,
          workspace_path := workspace,
          created_at := now, updated_at := now }
      ({ w with dirs := mkdirP workspace w.dirs,
                projects := w.projects ++ [p],
                nextId := w.nextId + 1 },
       .ok p)

/-- `delete_project`: kill the tmux session when the stored name is
non-empty, remove the workspace tree if present, delete the project's
agent-instance rows and the project row.  Chat messages are not touched
by this handler. -/
def deleteProject (w : World) (uid pid : Nat) : World × Except String Unit :=
  match findProject w pid uid with
  | none => (w, .error "Project not found")
  | some p =>
    let sessions :=
      if p.tmux_session ≠ "" then killSession p.tmux_session w.sessions
      else w.sessions
    let dirs :=
      if p.workspace_path ∈ w.dirs then rmTree p.workspace_path w.dirs
      else w.dirs
    ({ w with sessions := sessions, dirs := dirs,
              instances := w.instances.filter
                (fun i => i.project_id ≠ some p.id),
              projects := w.projects.filter (fun q => q.id ≠ p.id) },
     .ok ())

/-- `start_project`: reject when the status is already `running`
(before any effect), otherwise ensure the workspace directory, create
the tmux session (`tmux new-session` fails when the name is taken),
send the `claude` launch keystroke, record a running agent instance and
set `status="running"`. -/
def startProject (w : World) (user : UserRec) (pid : Nat) (now : Nat) :
    World × Except String Project :=
  match findProject w pid user.id with
  | none => (w, .error "Project not found")
  | some p =>
    if p.status = "running" then (w, .error "Project is already running")
    else
      let dirs := mkdirP p.workspace_path w.dirs
      if p.tmux_session ∈ w.sessions then
        ({ w with dirs := dirs }, .error "duplicate tmux session")
      else
        let inst : AgentInstance :=
          { id := w.nextId, user_id := user.id, agent_id := p.agent_id,
            project_id := some p.id, pid := none, status := "running",
            started_at := some now, stopped_at := none }
        let p' := { p with status := "running", updated_at := now }
        ({ w with dirs := dirs,
                  sessions := p.tmux_session :: w.sessions,
                  instances := w.instances ++ [inst],
                  projects := w.projects.map
                    (fun q => if q.id = p.id then p' else q),
                  nextId := w.nextId + 1 },
         .ok p')

/-- The per-row update applied by `stop_project` to running instances of
the stopped project. -/
def stopInstance (pid now : Nat) (i : AgentInstance) : AgentInstance :=
  if i.project_id = some pid && i.status = "running" then
    { i with status := "stopped", stopped_at := some now }
  else i

/-- `stop_project`: best-effort kill of the tmux session, mark the
project's running instances stopped, set `status="paused"`. -/
def stopProject (w : World) (uid pid now : Nat) :
    World × Except String Project :=
  match findProject w pid uid with
  | none => (w, .error "Project not found")
  | some p =>
    let sessions :=
      if p.tmux_session ≠ "" then killSession p.tmux_session w.sessions
      else w.sessions
    let p' := { p with status := "paused", updated_at := now }
    ({ w with sessions := sessions,
              instances := w.instances.map (stopInstance p.id now),
              projects := w.projects.map
                (fun q => if q.id = p.id then p' else q) },
     .ok p')

/-- `create_research_session` (`app/api/research.py`): agent check, slug
derivation and rejection, workspace creation, then the new row with
`status="idle"` and `tmux_session=""`.  No tmux session is created and
no CLI process is started here. -/
def createResearchSession (w : World) (user : UserRec) (agentId : Nat)
    (name : String) (now : Nat) : World × Except String ResearchSession :=
  match findAgent w agentId user.id with
  | none => (w, .error "Agent not found")
  | some _ =>
    let slug := generateSlug name
    if slug = "" then (w, .error "Invalid session name")
    else
      let workspace := researchWorkspacePath user.username slug
      let r : ResearchSession :=
        { id := w.nextId, user_id := user.id, agent_id := agentId,
          name := name, slug := slug, status := "idle",
          tmux_session := "", workspace_path := workspace,
          created_at := now, updated_at := now }
      ({ w with dirs := mkdirP workspace w.dirs,
                research := w.research ++ [r],
                nextId := w.nextId + 1 },
       .ok r)

/-- `delete_research_session`: remove the workspace tree if present,
delete all chat messages with `("research", id)`, delete the row.
(The background-task cancellation has no relational or tmux effect.) -/
def deleteResearchSession (w : World) (uid sid : Nat) :
    World × Except String Unit :=
  match findResearch w sid uid with
  | none => (w, .error "Research session not found")
  | some r =>
    let dirs :=
      if r.workspace_path ∈ w.dirs then rmTree r.workspace_path w.dirs
      else w.dirs
    ({ w with dirs := dirs,
              messages := w.messages.filter
                (fun m => !(m.session_type = "research" &&
                            m.session_id = r.id)),
              research := w.research.filter (fun q => q.id ≠ r.id) },
     .ok ())

/-- `send_message` of the research API: store the user's message, set
`status="thinking"`, commit; the background task then runs the CLI. -/
def sendMessage (w : World) (user : UserRec) (sid : Nat) (content : String)
    (now : Nat) : World × Except String ChatMessage :=
  match findResearch w sid user.id with
  | none => (w, .error "Research session not found")
  | some r =>
    let msg : ChatMessage :=
      { id := w.nextId, user_id := user.id, session_type := "research",
        session_id := r.id, role := "user", content := content,
        created_at := now }
    let r' := { r with status := "thinking", updated_at := now }
    ({ w with messages := w.messages ++ [msg],
              research := w.research.map
                (fun q => if q.id = r.id then r' else q),
              nextId := w.nextId + 1 },
     .ok msg)

/-- `run_claude_message` (`app/services/research_runner.py`): one-shot
CLI invocation; a non-zero exit raises
`RuntimeError(f"Claude CLI failed (exit {returncode}): {stderr}")`,
otherwise the JSON payload's `result` field is returned (the parsed
field is taken as a parameter here). -/
def runClaudeMessage (returncode : Nat) (stderr resultField : String) :
    Except String String :=
  if returncode ≠ 0 then
    .error ("Claude CLI failed (exit " ++ toString returncode ++ "): " ++
      stderr)
  else .ok resultField

/-- `_process_claude_response`: store the CLI's reply as an assistant
message, or on failure an assistant message `"Error: ..."`; in both
cases finish by setting the session's status to `idle`. -/
def processClaudeResponse (w : World) (sid uid : Nat)
    (cli : Except String String) (now : Nat) : World :=
  let content :=
    match cli with
    | .ok t => t
    | .error e => "Error: " ++ e
  let msg : ChatMessage :=
    { id := w.nextId, user_id := uid, session_type := "research",
      session_id := sid, role := "assistant", content := content,
      created_at := now }
  { w with messages := w.messages ++ [msg],
           research := w.research.map
             (fun q => if q.id = sid then
                { q with status := "idle", updated_at := now } else q),
           nextId := w.nextId + 1 }

/-! ## Concrete fixtures used by witnesses and counterexamples -/

/-- A user. -/
def userAlice : UserRec := { id := 1, username := "alice" }

/-- A store holding one agent of that user and nothing else. -/
def baseWorld : World :=
  { agents := [{ id := 1, user_id := 1 }], projects := [], research := [],
    instances := [], messages := [], sessions := [], dirs := [],
    nextId := 10 }

/-- A project of `userAlice` that has been started. -/
def runningProject : Project :=
  { id := 10, user_id := 1, agent_id := 1, name := "Web App",
    slug := "web-app", description := "d", architecture := "",
    implementation_plan := "[]", status := "running", current_step := 0,
    tmux_session := "alice-web-app",
    workspace_path := "/data/users/alice/projects/web-app",
    created_at := 0, updated_at := 0 }

/-- The world after that project was created and started. -/
def runningWorld : World :=
  { baseWorld with
    projects := [runningProject],
    sessions := ["alice-web-app"],
    instances := [{ id := 11, user_id := 1, agent_id := 1,
                    project_id := some 10, pid := none,
                    status := "running", started_at := some 0,
                    stopped_at := none }],
    dirs := ["/data/users/alice/projects/web-app"],
    nextId := 12 }

/-- A research session of `userAlice`. -/
def topicResearch : ResearchSession :=
  { id := 20, user_id := 1, agent_id := 1, name := "Topic",
    slug := "topic", status := "idle", tmux_session := "",
    workspace_path := "/data/users/alice/research/topic",
    created_at := 0, updated_at := 0 }

/-- A world holding the running project, the research session and a
transcript for the research session. -/
def transcriptWorld : World :=
  { baseWorld with
    projects := [runningProject],
    research := [topicResearch],
    messages :=
      [{ id := 21, user_id := 1, session_type := "research",
         session_id := 20, role := "user", content := "hi",
         created_at := 1 },
       { id := 22, user_id := 1, session_type := "research",
         session_id := 20, role := "assistant", content := "hello",
         created_at := 2 },
       { id := 23, user_id := 1, session_type := "learning",
         session_id := 7, role := "user", content := "teach",
         created_at := 3 }],
    sessions := ["alice-web-app"],
    dirs := ["/data/users/alice/projects/web-app",
             "/data/users/alice/research/topic"],
    nextId := 30 }

/-- First creation of a project named "Web App". -/
def firstCreate : World × Except String Project :=
  createProject baseWorld userAlice 1 "Web App" "d" none 0

/-- Second creation of a project with the same name by the same user. -/
def secondCreate : World × Except String Project :=
  createProject firstCreate.1 userAlice 1 "Web App" "d2" none 1

/-- A research-session creation from the base world. -/
def researchCreate : World × Except String ResearchSession :=
  createResearchSession baseWorld userAlice 1 "Topic" 0

/-- The record returned by `researchCreate`. -/
def researchCreateRec : ResearchSession :=
  { id := 10, user_id := 1, agent_id := 1, name := "Topic",
    slug := "topic", status := "idle", tmux_session := "",
    workspace_path := "/data/users/alice/research/topic",
    created_at := 0, updated_at := 0 }

/-- First stop of the running project, at time 1. -/
def firstStop : World × Except String Project :=
  stopProject runningWorld 1 10 1

/-- Second stop of the same project, at time 2. -/
def secondStop : World × Except String Project :=
  stopProject firstStop.1 1 10 2

/-! ## Supporting lemmas -/

theorem isPrefixOf_self : ∀ l : List Char, l.isPrefixOf l = true := by
  intro l
  induction l with
  | nil => rfl
  | cons c cs ih => simp [List.isPrefixOf, ih]

theorem underPath_self (p : String) : underPath p p = true := by
  simp [underPath, isPrefixOf_self]

theorem stripBoth_eq_nil_of_all {p : Char → Bool} {l : List Char}
    (h : ∀ c ∈ l, p c = true) : stripBoth p l = [] := by
  have h1 : l.dropWhile p = [] := by
    rw [List.dropWhile_eq_nil_iff]
    intro x hx
    exact h x hx
  simp [stripBoth, stripEnd, h1]

/-- After an observation of an existing session, the bridge's
`last_output` equals that observation's captured text. -/
theorem bridgeStep_fst_of_live (last a : String) :
    (bridgeStep last (true, a)).1 = a := by
  by_cases h : a = last <;> simp [bridgeStep, h]

/-- Element `i` of the bridge's per-iteration message lists is the step
applied at the accumulated `last_output`. -/
theorem bridgeRun_get? :
    ∀ (tr : List (Bool × String)) (l0 : String) (i : Nat),
      (bridgeRun l0 tr)[i]? =
        (tr[i]?).map
          (fun obs => (bridgeStep (bridgeLast l0 (tr.take i)) obs).2) := by
  intro tr
  induction tr with
  | nil => intro l0 i; simp [bridgeRun]
  | cons obs rest ih =>
    intro l0 i
    cases i with
    | zero => simp [bridgeRun, bridgeLast]
    | succ j => simp [bridgeRun, bridgeLast, ih]

/-- After consuming `i + 1` observations whose last one saw a live
session capture `a`, the bridge's `last_output` is `a`. -/
theorem bridgeLast_take :
    ∀ (tr : List (Bool × String)) (l0 : String) (i : Nat) (a : String),
      tr[i]? = some (true, a) →
      bridgeLast l0 (tr.take (i + 1)) = a := by
  intro tr
  induction tr with
  | nil => intro l0 i a h; simp at h
  | cons obs rest ih =>
    intro l0 i a h
    cases i with
    | zero =>
      simp at h
      subst h
      simp [bridgeLast, bridgeStep_fst_of_live]
    | succ j =>
      simp at h
      simpa [bridgeLast] using ih (bridgeStep l0 obs).1 j a h

/-- No modelled operation ever writes a chat message whose session type
is `"project"`: `send_message` writes `"research"` rows... -/
theorem sendMessage_preserves_no_project_messages
    (w : World) (user : UserRec) (sid : Nat) (content : String) (now : Nat)
    (h : ∀ m ∈ w.messages, m.session_type ≠ "project") :
    ∀ m ∈ (sendMessage w user sid content now).1.messages,
      m.session_type ≠ "project" := by
  intro m hm
  unfold sendMessage at hm
  cases hfind : findResearch w sid user.id with
  | none => rw [hfind] at hm; exact h m hm
  | some r =>
    rw [hfind] at hm
    simp at hm
    rcases hm with hm | hm
    · exact h m hm
    · subst hm; simp

/-- ... and `_process_claude_response` writes `"research"` rows. -/
theorem processClaudeResponse_preserves_no_project_messages
    (w : World) (sid uid : Nat) (cli : Except String String) (now : Nat)
    (h : ∀ m ∈ w.messages, m.session_type ≠ "project") :
    ∀ m ∈ (processClaudeResponse w sid uid cli now).messages,
      m.session_type ≠ "project" := by
  intro m hm
  unfold processClaudeResponse at hm
  simp at hm
  rcases hm with hm | hm
  · exact h m hm
  · subst hm; simp

/-- `kill_session` is idempotent on the session list. -/
theorem killSession_idem (n : String) (s : List String) :
    killSession n (killSession n s) = killSession n s := by
  simp [killSession, List.filter_filter]

/-- Stopping an instance row a second time changes nothing. -/
theorem stopInstance_idem (pid t1 t2 : Nat) (i : AgentInstance) :
    stopInstance pid t2 (stopInstance pid t1 i) = stopInstance pid t1 i := by
  by_cases h1 : i.project_id = some pid <;>
    by_cases h2 : i.status = "running" <;>
    simp [stopInstance, h1, h2]

/-- Looking a project up after every row with its id has been replaced
by the updated row `p'` finds exactly `p'`. -/
theorem findProject_after_update
    (l : List Project) (pid uid : Nat) (p p' : Project)
    (hmem : p ∈ l) (hid : p.id = pid)
    (hid' : p'.id = pid) (huser : p'.user_id = uid) :
    (l.map (fun q => if q.id = pid then p' else q)).find?
      (fun q => q.id = pid && q.user_id = uid) = some p' := by
  induction l with
  | nil => simp at hmem
  | cons q t ih =>
    rw [List.map_cons]
    by_cases hq : q.id = pid
    · rw [if_pos hq]
      exact List.find?_cons_of_pos _ (by simp [hid', huser])
    · rw [if_neg hq]
      rw [List.find?_cons_of_neg _ (by simp [hq])]
      apply ih
      rcases List.mem_cons.mp hmem with h | h
      · subst h; exact absurd hid hq
      · exact h

/-! ### Slug-pipeline lemmas -/

theorem mem_of_head?_eq_some {l : List Char} {c : Char}
    (h : l.head? = some c) : c ∈ l := by
  cases l with
  | nil => simp at h
  | cons a t =>
    simp at h
    subst h
    exact List.mem_cons_self a t

theorem mem_of_getLast?_eq_some :
    ∀ {l : List Char} {c : Char}, l.getLast? = some c → c ∈ l
  | [], c, h => by simp at h
  | [a], c, h => by
    simp at h
    subst h
    exact List.mem_cons_self a []
  | a :: b :: t, c, h => by
    rw [List.getLast?_cons_cons] at h
    exact List.mem_cons_of_mem a (mem_of_getLast?_eq_some h)

theorem dropWhile_eq_self_of_head {p : Char → Bool} :
    ∀ l : List Char, (∀ c, l.head? = some c → p c = false) →
      l.dropWhile p = l
  | [], _ => rfl
  | c :: cs, h => by
    have hc := h c rfl
    simp [List.dropWhile_cons, hc]

theorem head?_dropWhile_false {p : Char → Bool} :
    ∀ {l : List Char} {c : Char}, (l.dropWhile p).head? = some c →
      p c = false
  | [], c, h => by simp at h
  | a :: as, c, h => by
    by_cases ha : p a
    · rw [List.dropWhile_cons, if_pos ha] at h
      exact head?_dropWhile_false h
    · rw [List.dropWhile_cons, if_neg ha] at h
      simp at h
      subst h
      simpa using ha

theorem stripEnd_append_eq (p : Char → Bool) (l : List Char) :
    ∃ t, stripEnd p l ++ t = l := by
  refine ⟨(l.reverse.takeWhile p).reverse, ?_⟩
  show (l.reverse.dropWhile p).reverse ++ (l.reverse.takeWhile p).reverse = l
  rw [← List.reverse_append, List.takeWhile_append_dropWhile,
    List.reverse_reverse]

theorem head?_stripEnd {p : Char → Bool} {l : List Char} {c : Char}
    (h : (stripEnd p l).head? = some c) : l.head? = some c := by
  obtain ⟨t, ht⟩ := stripEnd_append_eq p l
  rw [← ht]
  cases hse : stripEnd p l with
  | nil => rw [hse] at h; simp at h
  | cons a as =>
    rw [hse] at h
    simp at h ⊢
    exact h

theorem getLast?_stripEnd_false {p : Char → Bool} {l : List Char} {c : Char}
    (h : (stripEnd p l).getLast? = some c) : p c = false := by
  unfold stripEnd at h
  rw [List.getLast?_reverse] at h
  exact head?_dropWhile_false h

theorem head?_stripBoth_false {p : Char → Bool} {l : List Char} {c : Char}
    (h : (stripBoth p l).head? = some c) : p c = false := by
  unfold stripBoth at h
  exact head?_dropWhile_false (head?_stripEnd h)

theorem getLast?_stripBoth_false {p : Char → Bool} {l : List Char} {c : Char}
    (h : (stripBoth p l).getLast? = some c) : p c = false := by
  unfold stripBoth at h
  exact getLast?_stripEnd_false h

theorem mem_stripBoth_subset {p : Char → Bool} {l : List Char} {c : Char}
    (h : c ∈ stripBoth p l) : c ∈ l := by
  unfold stripBoth at h
  obtain ⟨t, ht⟩ := stripEnd_append_eq p (l.dropWhile p)
  have h2 : c ∈ l.dropWhile p := by
    rw [← ht]
    exact List.mem_append_left t h
  exact (List.dropWhile_sublist p).subset h2

theorem chain'_stripBoth {R : Char → Char → Prop} {p : Char → Bool}
    {l : List Char} (h : List.Chain' R l) :
    List.Chain' R (stripBoth p l) := by
  unfold stripBoth
  have hsplit : l.takeWhile p ++ l.dropWhile p = l :=
    List.takeWhile_append_dropWhile p l
  rw [← hsplit] at h
  have h1 : List.Chain' R (l.dropWhile p) := (List.chain'_append.mp h).2.1
  obtain ⟨t, ht⟩ := stripEnd_append_eq p (l.dropWhile p)
  rw [← ht] at h1
  exact (List.chain'_append.mp h1).1

theorem stripBoth_eq_self (p : Char → Bool) (l : List Char)
    (hh : ∀ c, l.head? = some c → p c = false)
    (hl : ∀ c, l.getLast? = some c → p c = false) :
    stripBoth p l = l := by
  unfold stripBoth stripEnd
  rw [dropWhile_eq_self_of_head l hh]
  rw [dropWhile_eq_self_of_head l.reverse
    (fun c hc => hl c (by rwa [List.head?_reverse] at hc))]
  exact List.reverse_reverse l

theorem collapseRuns_mem (p : Char → Bool) (rep : Char) :
    ∀ (l : List Char) (b : Bool) (c : Char), c ∈ collapseRuns p rep b l →
      c = rep ∨ (c ∈ l ∧ p c = false) := by
  intro l
  induction l with
  | nil => intro b c h; simp [collapseRuns] at h
  | cons a t ih =>
    intro b c h
    by_cases ha : p a
    · cases b with
      | true =>
        rw [show collapseRuns p rep true (a :: t) =
            collapseRuns p rep true t from by simp [collapseRuns, ha]] at h
        rcases ih true c h with h1 | ⟨h2, h3⟩
        · exact Or.inl h1
        · exact Or.inr ⟨List.mem_cons_of_mem a h2, h3⟩
      | false =>
        rw [show collapseRuns p rep false (a :: t) =
            rep :: collapseRuns p rep true t from by
              simp [collapseRuns, ha]] at h
        rcases List.mem_cons.mp h with h1 | h1
        · exact Or.inl h1
        · rcases ih true c h1 with h2 | ⟨h2, h3⟩
          · exact Or.inl h2
          · exact Or.inr ⟨List.mem_cons_of_mem a h2, h3⟩
    · rw [show collapseRuns p rep b (a :: t) =
          a :: collapseRuns p rep false t from by
            simp [collapseRuns, ha]] at h
      rcases List.mem_cons.mp h with h1 | h1
      · subst h1
        exact Or.inr ⟨List.mem_cons_self _ _, by simpa using ha⟩
      · rcases ih false c h1 with h2 | ⟨h2, h3⟩
        · exact Or.inl h2
        · exact Or.inr ⟨List.mem_cons_of_mem a h2, h3⟩

theorem collapseRuns_chain (p : Char → Bool) (rep : Char) :
    ∀ l : List Char,
      (∀ c, (collapseRuns p rep true l).head? = some c → p c = false) ∧
      ∀ b, List.Chain' (fun a c => ¬(p a = true ∧ p c = true))
        (collapseRuns p rep b l) := by
  intro l
  induction l with
  | nil =>
    constructor
    · intro c h; simp [collapseRuns] at h
    · intro b; simp [collapseRuns]
  | cons a t ih =>
    by_cases ha : p a
    · constructor
      · intro c h
        rw [show collapseRuns p rep true (a :: t) =
            collapseRuns p rep true t from by simp [collapseRuns, ha]] at h
        exact ih.1 c h
      · intro b
        cases b with
        | true =>
          rw [show collapseRuns p rep true (a :: t) =
              collapseRuns p rep true t from by simp [collapseRuns, ha]]
          exact ih.2 true
        | false =>
          rw [show collapseRuns p rep false (a :: t) =
              rep :: collapseRuns p rep true t from by
                simp [collapseRuns, ha]]
          apply List.chain'_cons'.mpr
          refine ⟨?_, ih.2 true⟩
          intro y hy hcontra
          have hpy := ih.1 y (Option.mem_def.mp hy)
          rw [hcontra.2] at hpy
          exact absurd hpy (by decide)
    · constructor
      · intro c h
        rw [show collapseRuns p rep true (a :: t) =
            a :: collapseRuns p rep false t from by
              simp [collapseRuns, ha]] at h
        simp at h
        subst h
        simpa using ha
      · intro b
        rw [show collapseRuns p rep b (a :: t) =
            a :: collapseRuns p rep false t from by
              simp [collapseRuns, ha]]
        apply List.chain'_cons'.mpr
        refine ⟨?_, ih.2 false⟩
        intro y hy hcontra
        exact absurd hcontra.1 (by simpa using ha)

theorem collapseRuns_eq_self (p : Char → Bool) (rep : Char) :
    ∀ l : List Char, (∀ c ∈ l, p c = false) →
      collapseRuns p rep false l = l := by
  intro l
  induction l with
  | nil => intro _; rfl
  | cons a t ih =>
    intro h
    have ha : p a = false := h a (List.mem_cons_self a t)
    rw [show collapseRuns p rep false (a :: t) =
        a :: collapseRuns p rep false t from by simp [collapseRuns, ha]]
    rw [ih (fun c hc => h c (List.mem_cons_of_mem a hc))]

theorem collapseRuns_dash_eq_self :
    ∀ l : List Char,
      List.Chain' (fun a c => ¬(a = '-' ∧ c = '-')) l →
      (collapseRuns (fun c => c = '-') '-' false l = l ∧
       ((∀ c, l.head? = some c → c ≠ '-') →
         collapseRuns (fun c => c = '-') '-' true l = l)) := by
  intro l
  induction l with
  | nil => intro _; exact ⟨rfl, fun _ => rfl⟩
  | cons a t ih =>
    intro hch
    obtain ⟨hR, hch'⟩ := List.chain'_cons'.mp hch
    have iht := ih hch'
    by_cases ha : a = '-'
    · have hhead : ∀ c, t.head? = some c → c ≠ '-' := by
        intro c hc hcd
        exact hR c (Option.mem_def.mpr hc) ⟨ha, hcd⟩
      constructor
      · rw [show collapseRuns (fun c => c = '-') '-' false (a :: t) =
            '-' :: collapseRuns (fun c => c = '-') '-' true t from by
              simp [collapseRuns, ha]]
        rw [iht.2 hhead, ha]
      · intro hh
        exact absurd ha (hh a rfl)
    · constructor
      · rw [show collapseRuns (fun c => c = '-') '-' false (a :: t) =
            a :: collapseRuns (fun c => c = '-') '-' false t from by
              simp [collapseRuns, ha]]
        rw [iht.1]
      · intro _
        rw [show collapseRuns (fun c => c = '-') '-' true (a :: t) =
            a :: collapseRuns (fun c => c = '-') '-' false t from by
              simp [collapseRuns, ha]]
        rw [iht.1]

theorem pyLowerChar_eq_self_of_slugChar {c : Char}
    (h : isSlugChar c = true) : pyLowerChar c = c := by
  simp only [isSlugChar, isLowerAlnum, Bool.or_eq_true, Bool.and_eq_true,
    decide_eq_true_eq] at h
  unfold pyLowerChar
  rcases h with (⟨h1, h2⟩ | ⟨h1, h2⟩) | h1
  · rw [if_neg (by simp only [Bool.and_eq_true, decide_eq_true_eq]; omega)]
  · rw [if_neg (by simp only [Bool.and_eq_true, decide_eq_true_eq]; omega)]
  · subst h1; decide

theorem pyLowerChar_eq_self_of_not_alnum {c : Char}
    (h : isPyAlnum c = false) : pyLowerChar c = c := by
  have h2 : ¬(65 ≤ c.toNat ∧ c.toNat ≤ 90) := by
    intro hc
    have ht : isPyAlnum c = true := by
      simp only [isPyAlnum, Bool.or_eq_true, Bool.and_eq_true,
        decide_eq_true_eq]
      omega
    rw [ht] at h
    exact absurd h (by decide)
  unfold pyLowerChar
  rw [if_neg (by simpa only [Bool.and_eq_true, decide_eq_true_eq] using h2)]

theorem isPySpace_false_of_slugChar {c : Char}
    (h : isSlugChar c = true) : isPySpace c = false := by
  cases hps : isPySpace c with
  | false => rfl
  | true =>
    exfalso
    simp only [isPySpace, Bool.or_eq_true, decide_eq_true_eq] at hps
    simp only [isSlugChar, isLowerAlnum, Bool.or_eq_true, Bool.and_eq_true,
      decide_eq_true_eq] at h
    rcases h with (⟨h1, h2⟩ | ⟨h1, h2⟩) | h1
    · omega
    · omega
    · subst h1
      exact absurd hps (by decide)

theorem isKeptChar_true_of_slugChar {c : Char}
    (h : isSlugChar c = true) : isKeptChar c = true := by
  simp only [isSlugChar, Bool.or_eq_true] at h
  simp only [isKeptChar, Bool.or_eq_true]
  rcases h with h | h
  · exact Or.inl (Or.inl h)
  · exact Or.inr h

theorem map_eq_self_of_fixed {f : Char → Char} :
    ∀ l : List Char, (∀ c ∈ l, f c = c) → l.map f = l
  | [], _ => rfl
  | a :: t, h => by
    rw [List.map_cons, h a (List.mem_cons_self a t),
      map_eq_self_of_fixed t (fun c hc => h c (List.mem_cons_of_mem a hc))]

/-- The output of the slug pipeline is normalized: only lowercase
alphanumerics and dashes, no two adjacent dashes, no leading or
trailing dash. -/
theorem generateSlugChars_normalized (l : List Char) :
    (∀ c ∈ generateSlugChars l, isSlugChar c = true) ∧
    List.Chain' (fun a c => ¬(a = '-' ∧ c = '-')) (generateSlugChars l) ∧
    (∀ c, (generateSlugChars l).head? = some c → c ≠ '-') ∧
    (∀ c, (generateSlugChars l).getLast? = some c → c ≠ '-') := by
  have hdef : generateSlugChars l =
      stripBoth (fun c => c = '-')
        (collapseRuns (fun c => c = '-') '-' false
          (collapseRuns isPySpace '-' false
            ((stripBoth isPySpace (l.map pyLowerChar)).filter isKeptChar))) :=
    rfl
  have hm2 : ∀ c ∈ (stripBoth isPySpace (l.map pyLowerChar)).filter
      isKeptChar, isKeptChar c = true :=
    fun c hc => (List.mem_filter.mp hc).2
  have hm3 : ∀ c ∈ collapseRuns isPySpace '-' false
      ((stripBoth isPySpace (l.map pyLowerChar)).filter isKeptChar),
      isSlugChar c = true := by
    intro c hc
    rcases collapseRuns_mem isPySpace '-' _ false c hc with h1 | ⟨h2, h3⟩
    · subst h1; decide
    · have hk := hm2 c h2
      simp only [isKeptChar, Bool.or_eq_true] at hk
      simp only [isSlugChar, Bool.or_eq_true]
      rcases hk with (h | h) | h
      · exact Or.inl h
      · rw [h] at h3; exact absurd h3 (by decide)
      · exact Or.inr h
  have hm4 : ∀ c ∈ collapseRuns (fun c => c = '-') '-' false
      (collapseRuns isPySpace '-' false
        ((stripBoth isPySpace (l.map pyLowerChar)).filter isKeptChar)),
      isSlugChar c = true := by
    intro c hc
    rcases collapseRuns_mem (fun c => c = '-') '-' _ false c hc
      with h1 | ⟨h2, _⟩
    · subst h1; decide
    · exact hm3 c h2
  refine ⟨?_, ?_, ?_, ?_⟩
  · intro c hc
    rw [hdef] at hc
    exact hm4 c (mem_stripBoth_subset hc)
  · rw [hdef]
    apply chain'_stripBoth
    have hch := (collapseRuns_chain (fun c => c = '-') '-'
      (collapseRuns isPySpace '-' false
        ((stripBoth isPySpace (l.map pyLowerChar)).filter
          isKeptChar))).2 false
    refine hch.imp ?_
    intro a b hab hcontra
    exact hab ⟨by simp [hcontra.1], by simp [hcontra.2]⟩
  · intro c hc
    rw [hdef] at hc
    have := head?_stripBoth_false hc
    simpa using this
  · intro c hc
    rw [hdef] at hc
    have := getLast?_stripBoth_false hc
    simpa using this

/-- The slug pipeline is the identity on normalized inputs. -/
theorem generateSlugChars_eq_self_of_normalized (l : List Char)
    (hall : ∀ c ∈ l, isSlugChar c = true)
    (hch : List.Chain' (fun a c => ¬(a = '-' ∧ c = '-')) l)
    (hh : ∀ c, l.head? = some c → c ≠ '-')
    (hl : ∀ c, l.getLast? = some c → c ≠ '-') :
    generateSlugChars l = l := by
  have hdef : generateSlugChars l =
      stripBoth (fun c => c = '-')
        (collapseRuns (fun c => c = '-') '-' false
          (collapseRuns isPySpace '-' false
            ((stripBoth isPySpace (l.map pyLowerChar)).filter isKeptChar))) :=
    rfl
  rw [hdef]
  have hspace : ∀ c ∈ l, isPySpace c = false :=
    fun c hc => isPySpace_false_of_slugChar (hall c hc)
  rw [map_eq_self_of_fixed l
    (fun c hc => pyLowerChar_eq_self_of_slugChar (hall c hc))]
  rw [stripBoth_eq_self isPySpace l
    (fun c hc => hspace c (mem_of_head?_eq_some hc))
    (fun c hc => hspace c (mem_of_getLast?_eq_some hc))]
  rw [List.filter_eq_self.mpr
    (fun c hc => isKeptChar_true_of_slugChar (hall c hc))]
  rw [collapseRuns_eq_self isPySpace '-' l hspace]
  rw [(collapseRuns_dash_eq_self l hch).1]
  exact stripBoth_eq_self _ l
    (fun c hc => by simpa using hh c hc)
    (fun c hc => by simpa using hl c hc)

/-- On names with no ASCII alphanumeric character, the slug pipeline
yields the empty list. -/
theorem generateSlugChars_eq_nil_of_no_alnum (l : List Char)
    (h : ∀ c ∈ l, isPyAlnum c = false) : generateSlugChars l = [] := by
  have hdef : generateSlugChars l =
      stripBoth (fun c => c = '-')
        (collapseRuns (fun c => c = '-') '-' false
          (collapseRuns isPySpace '-' false
            ((stripBoth isPySpace (l.map pyLowerChar)).filter isKeptChar))) :=
    rfl
  rw [hdef]
  rw [map_eq_self_of_fixed l
    (fun c hc => pyLowerChar_eq_self_of_not_alnum (h c hc))]
  have hs2 : ∀ c ∈ (stripBoth isPySpace l).filter isKeptChar,
      isPySpace c = true ∨ c = '-' := by
    intro c hc
    obtain ⟨hcmem, hck⟩ := List.mem_filter.mp hc
    have hna := h c (mem_stripBoth_subset hcmem)
    simp only [isKeptChar, Bool.or_eq_true] at hck
    rcases hck with (hk | hk) | hk
    · exfalso
      simp only [isLowerAlnum, Bool.or_eq_true, Bool.and_eq_true,
        decide_eq_true_eq] at hk
      have ht : isPyAlnum c = true := by
        simp only [isPyAlnum, Bool.or_eq_true, Bool.and_eq_true,
          decide_eq_true_eq]
        rcases hk with hk | hk
        · exact Or.inl (Or.inl hk)
        · exact Or.inr hk
      rw [ht] at hna
      exact absurd hna (by decide)
    · exact Or.inl hk
    · simp only [decide_eq_true_eq] at hk
      exact Or.inr hk
  have hs3 : ∀ c ∈ collapseRuns isPySpace '-' false
      ((stripBoth isPySpace l).filter isKeptChar), c = '-' := by
    intro c hc
    rcases collapseRuns_mem isPySpace '-' _ false c hc with h1 | ⟨h2, h3⟩
    · exact h1
    · rcases hs2 c h2 with hsp | hd
      · rw [hsp] at h3; exact absurd h3 (by decide)
      · exact hd
  have hs4 : ∀ c ∈ collapseRuns (fun c => c = '-') '-' false
      (collapseRuns isPySpace '-' false
        ((stripBoth isPySpace l).filter isKeptChar)), c = '-' := by
    intro c hc
    rcases collapseRuns_mem (fun c => c = '-') '-' _ false c hc
      with h1 | ⟨h2, _⟩
    · exact h1
    · exact hs3 c h2
  exact stripBoth_eq_nil_of_all (fun c hc => by simpa using hs4 c hc)

/-- Invariant of the monitor loop: started at poll index `i` with
`last_output` and `no_change_count` holding their specified values, the
loop stops at the first poll that is idle or pushes the no-change
counter over 150, and otherwise runs out its fuel. -/
theorem monitorGo_spec (cap : Nat → String) :
    ∀ (fuel i : Nat) (out : String) (k : Nat) (early : Bool),
      monitorGo cap fuel i (prevCap cap i) (staleCount cap i) =
        (out, k, early) →
      (∀ j, i ≤ j → j < k → claudeCodeWaitingForInput (cap j) = false ∧
         staleCount cap (j + 1) ≤ 150) ∧
      (early = true → i ≤ k ∧ k < i + fuel ∧ out = cap k ∧
         (claudeCodeWaitingForInput (cap k) = true ∨
           150 < staleCount cap (k + 1))) ∧
      (early = false → k = i + fuel ∧ out = prevCap cap k) := by
  intro fuel
  induction fuel with
  | zero =>
    intro i out k early h
    simp only [monitorGo, Prod.mk.injEq] at h
    obtain ⟨h1, h2, h3⟩ := h
    subst h1; subst h2; subst h3
    refine ⟨?_, ?_, ?_⟩
    · intro j hij hjk; omega
    · intro he; exact absurd he (by decide)
    · intro _; exact ⟨by omega, rfl⟩
  | succ fuel ih =>
    intro i out k early h
    simp only [monitorGo] at h
    by_cases hw : claudeCodeWaitingForInput (cap i) = true
    · rw [if_pos hw] at h
      simp only [Prod.mk.injEq] at h
      obtain ⟨h1, h2, h3⟩ := h
      subst h1; subst h2; subst h3
      refine ⟨?_, ?_, ?_⟩
      · intro j hij hjk; omega
      · intro _; exact ⟨le_refl i, by omega, rfl, Or.inl hw⟩
      · intro he; exact absurd he (by decide)
    · rw [if_neg hw] at h
      by_cases heq : cap i = prevCap cap i
      · rw [if_pos heq] at h
        have hsc : staleCount cap (i + 1) = staleCount cap i + 1 := by
          simp [staleCount, heq]
        by_cases hstale : 150 < staleCount cap i + 1
        · rw [if_pos hstale] at h
          simp only [Prod.mk.injEq] at h
          obtain ⟨h1, h2, h3⟩ := h
          subst h1; subst h2; subst h3
          refine ⟨?_, ?_, ?_⟩
          · intro j hij hjk; omega
          · intro _
            refine ⟨le_refl i, by omega, rfl, Or.inr ?_⟩
            rw [hsc]; exact hstale
          · intro he; exact absurd he (by decide)
        · rw [if_neg hstale] at h
          have h' : monitorGo cap fuel (i + 1) (prevCap cap (i + 1))
              (staleCount cap (i + 1)) = (out, k, early) := by
            rw [hsc]
            have hpc : prevCap cap (i + 1) = prevCap cap i := heq
            rw [hpc]
            exact h
          obtain ⟨s1, s2, s3⟩ := ih (i + 1) out k early h'
          refine ⟨?_, ?_, ?_⟩
          · intro j hij hjk
            by_cases hji : j = i
            · subst hji
              refine ⟨by simpa using hw, ?_⟩
              rw [hsc]; omega
            · exact s1 j (by omega) hjk
          · intro he
            obtain ⟨a, b, c, d⟩ := s2 he
            exact ⟨by omega, by omega, c, d⟩
          · intro he
            obtain ⟨a, b⟩ := s3 he
            exact ⟨by omega, b⟩
      · rw [if_neg heq] at h
        have hsc : staleCount cap (i + 1) = 0 := by
          simp [staleCount, heq]
        have h' : monitorGo cap fuel (i + 1) (prevCap cap (i + 1))
            (staleCount cap (i + 1)) = (out, k, early) := by
          rw [hsc]
          exact h
        obtain ⟨s1, s2, s3⟩ := ih (i + 1) out k early h'
        refine ⟨?_, ?_, ?_⟩
        · intro j hij hjk
          by_cases hji : j = i
          · subst hji
            refine ⟨by simpa using hw, ?_⟩
            rw [hsc]; omega
          · exact s1 j (by omega) hjk
        · intro he
          obtain ⟨a, b, c, d⟩ := s2 he
          exact ⟨by omega, by omega, c, d⟩
        · intro he
          obtain ⟨a, b⟩ := s3 he
          exact ⟨by omega, b⟩

/-! ## Claim theorems -/

/-- C1 (counterexample): two successive `create_project` calls by the
same user with the same name both succeed and leave two distinct
non-deleted projects whose derived multiplexer session names are equal
(`"alice-web-app"`), so the derived name is not unique across live
contexts and incorporates no context type. -/
theorem c1_session_name_collision :
    firstCreate.2.toOption.isSome = true ∧
    secondCreate.2.toOption.isSome = true ∧
    secondCreate.1.projects.map Project.id = [10, 11] ∧
    secondCreate.1.projects.map Project.tmux_session =
      ["alice-web-app", "alice-web-app"] := by
  decide

/-- C1 (amended): the derived multiplexer session name of a project is
`username ++ "-" ++ slug` — it incorporates the username and the slug
but no context type and is not checked for uniqueness — and it does
distinguish two projects of the same user with distinct slugs. -/
theorem c1_session_name_unique_per_user_slug :
    (∀ u s, projectTmuxName u s = u ++ "-" ++ s) ∧
    (∀ (u s1 s2 : String), s1 ≠ s2 →
      projectTmuxName u s1 ≠ projectTmuxName u s2) := by
  constructor
  · intro u s; rfl
  · intro u s1 s2 hne heq
    apply hne
    have hd := congrArg String.data heq
    simp only [projectTmuxName, String.data_append, List.append_assoc] at hd
    have h2 : s1.data = s2.data :=
      List.append_cancel_left (List.append_cancel_left hd)
    cases s1; cases s2; exact congrArg String.mk h2

theorem c1_session_name_unique_per_user_slug_witness :
    projectTmuxName "alice" "web-app" ≠ projectTmuxName "alice" "blog" :=
  c1_session_name_unique_per_user_slug.2 "alice" "web-app" "blog"
    (by decide)

/-- C2 (counterexample): creating a research session succeeds but starts
nothing: the stored multiplexer session name is the empty string, the
set of live sessions is untouched, and no live session carries the
stored name — so the returned record does not refer to a session that
was just created and sent a CLI-launch keystroke. -/
theorem c2_research_creation_starts_nothing_cex :
    researchCreate.2.toOption = some researchCreateRec ∧
    researchCreateRec.tmux_session = "" ∧
    researchCreate.1.sessions = baseWorld.sessions ∧
    researchCreateRec.tmux_session ∉ researchCreate.1.sessions := by
  decide

/-- C2 (amended): a successful research-session creation performs no
multiplexer operation — the live-session set is unchanged — and stores
the empty string as the record's multiplexer session name; the driven
CLI is only invoked one-shot when a message is later sent. -/
theorem c2_create_research_no_session
    (w : World) (user : UserRec) (agentId : Nat) (name : String)
    (now : Nat) (w' : World) (r : ResearchSession)
    (h : createResearchSession w user agentId name now = (w', .ok r)) :
    w'.sessions = w.sessions ∧ r.tmux_session = "" := by
  unfold createResearchSession at h
  cases hfind : findAgent w agentId user.id with
  | none => rw [hfind] at h; simp at h
  | some a =>
    rw [hfind] at h
    by_cases hslug : generateSlug name = ""
    · simp [hslug] at h
    · simp [hslug] at h
      obtain ⟨hw, hr⟩ := h
      subst hw
      constructor
      · rfl
      · rw [← hr]

theorem c2_create_research_no_session_witness :
    researchCreate.1.sessions = baseWorld.sessions ∧
    researchCreateRec.tmux_session = "" :=
  c2_create_research_no_session baseWorld userAlice 1 "Topic" 0
    researchCreate.1 researchCreateRec (by decide)

/-- C5: `start` on a project whose persisted status is `running` is a
rejected precondition: the handler returns the error before performing
any effect, so the whole world (store, tmux sessions, directories) is
returned unchanged. -/
theorem c5_start_running_rejected
    (w : World) (user : UserRec) (pid now : Nat) (p : Project)
    (hfind : findProject w pid user.id = some p)
    (hrun : p.status = "running") :
    startProject w user pid now = (w, .error "Project is already running") := by
  unfold startProject
  rw [hfind]
  simp [hrun]

theorem c5_start_running_rejected_witness :
    startProject runningWorld userAlice 10 5 =
      (runningWorld, .error "Project is already running") :=
  c5_start_running_rejected runningWorld userAlice 10 5 runningProject
    (by decide) (by decide)

/-- C8: whenever two consecutive iterations of the streaming bridge both
observe an existing session, the second iteration sends no message if
the two captured texts are equal and exactly the one message carrying
the new text if they differ. -/
theorem c8_bridge_sends_delta
    (tr : List (Bool × String)) (l0 : String) (i : Nat) (a b : String)
    (hi : tr[i]? = some (true, a))
    (hj : tr[i + 1]? = some (true, b)) :
    (bridgeRun l0 tr)[i + 1]? =
      some (if b = a then [] else [b]) := by
  rw [bridgeRun_get?, hj]
  have hlast : bridgeLast l0 (tr.take (i + 1)) = a :=
    bridgeLast_take tr l0 i a hi
  by_cases hab : b = a <;> simp [bridgeStep, hlast, hab]

theorem c8_bridge_sends_delta_witness :
    (bridgeRun "" [(true, "x"), (true, "x"), (true, "y")])[1]? =
        some [] ∧
    (bridgeRun "" [(true, "x"), (true, "x"), (true, "y")])[2]? =
        some ["y"] := by
  constructor
  · have h := c8_bridge_sends_delta
      [(true, "x"), (true, "x"), (true, "y")] "" 0 "x" "x" (by decide)
      (by decide)
    simpa using h
  · have h := c8_bridge_sends_delta
      [(true, "x"), (true, "x"), (true, "y")] "" 1 "x" "y" (by decide)
      (by decide)
    simpa using h

/-- C10: captured pane text consisting only of whitespace — in
particular the empty string, which is exactly what `capture_pane`
returns for a non-existent session — is classified busy (`false`),
never as awaiting input. -/
theorem c10_whitespace_pane_is_busy :
    (∀ s : String, (∀ c ∈ s.data, isPySpace c = true) →
      claudeCodeWaitingForInput s = false) ∧
    (∀ (panes : List (String × String)) (name : String),
      panes.find? (fun q => q.1 = name) = none →
      capturePane panes name = "") := by
  constructor
  · intro s hs
    have h1 : stripBoth isPySpace s.data = [] :=
      stripBoth_eq_nil_of_all hs
    simp only [claudeCodeWaitingForInput, h1]
    decide
  · intro panes name hfind
    simp [capturePane, hfind]

/-- C3: in `_monitor_until_done` the pane is captured once per loop
iteration with `elapsed` advancing by two time-units per capture, so
poll `m` happens exactly when `2 * m < timeout` (first conjunct); the
loop stops before the timeout precisely at the first poll where the
prompt-completion detector reports idle or where the pane text has
stayed unchanged long enough to push the no-change counter over 150 —
whichever of the two happens first — and otherwise polls until the
timeout is exhausted. -/
theorem c3_monitor_fixed_interval_and_early_stop
    (cap : Nat → String) (timeout : Nat) (out : String) (k : Nat)
    (early : Bool)
    (h : monitorUntilDone cap timeout = (out, k, early)) :
    (∀ m, m < monitorIters timeout ↔ 2 * m < timeout) ∧
    (∀ j, j < k → claudeCodeWaitingForInput (cap j) = false ∧
       staleCount cap (j + 1) ≤ 150) ∧
    (early = true → k < monitorIters timeout ∧ out = cap k ∧
       (claudeCodeWaitingForInput (cap k) = true ∨
         150 < staleCount cap (k + 1))) ∧
    (early = false → k = monitorIters timeout ∧ out = prevCap cap k) := by
  have hspec := monitorGo_spec cap (monitorIters timeout) 0 out k early h
  obtain ⟨s1, s2, s3⟩ := hspec
  refine ⟨?_, ?_, ?_, ?_⟩
  · intro m
    simp only [monitorIters]
    omega
  · intro j hjk
    exact s1 j (Nat.zero_le j) hjk
  · intro he
    obtain ⟨-, b, c, d⟩ := s2 he
    exact ⟨by omega, c, d⟩
  · intro he
    obtain ⟨a, b⟩ := s3 he
    exact ⟨by omega, b⟩

theorem c3_monitor_fixed_interval_and_early_stop_witness :
    (claudeCodeWaitingForInput ((fun _ => "$") 0) = true ∨
      150 < staleCount (fun _ => "$") 1) ∧
    (0 : Nat) < monitorIters 300 := by
  have h := c3_monitor_fixed_interval_and_early_stop
    (fun _ => "$") 300 "$" 0 true (by decide)
  exact ⟨(h.2.2.1 rfl).2.2, (h.2.2.1 rfl).1⟩

/-- C4: deleting a work context — whatever the prior state of the
multiplexer session — leaves the context's workspace directory absent
and no transcript row with the context's (session type, session id)
pair in the store.  For project deletion the handler touches no chat
messages, so the hypothesis that the store holds no `"project"`-typed
transcript rows is needed; it is an invariant of the system, since no
operation writes such rows (see the preservation lemmas above). -/
theorem c4_delete_removes_workspace_and_transcript (w : World) (uid : Nat) :
    (∀ (pid : Nat) (p : Project), findProject w pid uid = some p →
      (∀ m ∈ w.messages, m.session_type ≠ "project") →
      p.workspace_path ∉ ((deleteProject w uid pid).1).dirs ∧
      ∀ m ∈ ((deleteProject w uid pid).1).messages,
        ¬(m.session_type = "project" ∧ m.session_id = pid)) ∧
    (∀ (sid : Nat) (r : ResearchSession), findResearch w sid uid = some r →
      r.workspace_path ∉ ((deleteResearchSession w uid sid).1).dirs ∧
      ∀ m ∈ ((deleteResearchSession w uid sid).1).messages,
        ¬(m.session_type = "research" ∧ m.session_id = sid)) := by
  constructor
  · intro pid p hfind hm
    unfold deleteProject
    rw [hfind]
    constructor
    · by_cases hin : p.workspace_path ∈ w.dirs
      · simp [hin, rmTree, List.mem_filter, underPath_self]
      · simp [hin]
    · intro m hmem hboth
      exact hm m hmem hboth.1
  · intro sid r hfind
    have hps := List.find?_some hfind
    simp [decide_eq_true_eq] at hps
    unfold deleteResearchSession
    rw [hfind]
    constructor
    · by_cases hin : r.workspace_path ∈ w.dirs
      · simp [hin, rmTree, List.mem_filter, underPath_self]
      · simp [hin]
    · intro m hmem hboth
      obtain ⟨hb1, hb2⟩ := hboth
      rw [← hps.1] at hb2
      have hcond := (List.mem_filter.mp hmem).2
      simp [hb1, hb2] at hcond

theorem c4_delete_removes_workspace_and_transcript_witness :
    (runningProject.workspace_path ∉
        ((deleteProject transcriptWorld 1 10).1).dirs ∧
      ∀ m ∈ ((deleteProject transcriptWorld 1 10).1).messages,
        ¬(m.session_type = "project" ∧ m.session_id = 10)) ∧
    (topicResearch.workspace_path ∉
        ((deleteResearchSession transcriptWorld 1 20).1).dirs ∧
      ∀ m ∈ ((deleteResearchSession transcriptWorld 1 20).1).messages,
        ¬(m.session_type = "research" ∧ m.session_id = 20)) :=
  ⟨(c4_delete_removes_workspace_and_transcript transcriptWorld 1).1 10
      runningProject (by decide) (by decide),
   (c4_delete_removes_workspace_and_transcript transcriptWorld 1).2 20
      topicResearch (by decide)⟩

/-- C6: slug generation is a pure (hence deterministic) function of the
name and is idempotent — `generateSlug (generateSlug name) =
generateSlug name` — and every name without an alphanumeric character
slugs to the empty string, which `create_project` rejects with
"Invalid project name" (given the agent-ownership check passed). -/
theorem c6_slug_idempotent_and_punct_rejected (name : String) :
    generateSlug (generateSlug name) = generateSlug name ∧
    ((∀ c ∈ name.data, isPyAlnum c = false) →
      generateSlug name = "" ∧
      (∀ (w : World) (user : UserRec) (agentId : Nat) (ag : AgentRec)
        (description : String) (architecture : Option String) (now : Nat),
        findAgent w agentId user.id = some ag →
        createProject w user agentId name description architecture now =
          (w, .error "Invalid project name"))) := by
  constructor
  · have hn := generateSlugChars_normalized name.data
    exact congrArg String.mk
      (generateSlugChars_eq_self_of_normalized (generateSlugChars name.data)
        hn.1 hn.2.1 hn.2.2.1 hn.2.2.2)
  · intro hp
    have hnil := generateSlugChars_eq_nil_of_no_alnum name.data hp
    have hempty : generateSlug name = "" := by
      unfold generateSlug
      rw [hnil]
    refine ⟨hempty, ?_⟩
    intro w user agentId ag description architecture now hA
    unfold createProject
    rw [hA]
    simp [hempty]

theorem c6_slug_idempotent_and_punct_rejected_witness :
    generateSlug (generateSlug "My Awesome Project!") =
      generateSlug "My Awesome Project!" ∧
    generateSlug "!!! ---" = "" ∧
    createProject baseWorld userAlice 1 "!!! ---" "d" none 0 =
      (baseWorld, .error "Invalid project name") := by
  refine ⟨(c6_slug_idempotent_and_punct_rejected "My Awesome Project!").1,
    ?_, ?_⟩
  · exact ((c6_slug_idempotent_and_punct_rejected "!!! ---").2
      (by decide)).1
  · exact ((c6_slug_idempotent_and_punct_rejected "!!! ---").2
      (by decide)).2 baseWorld userAlice 1 { id := 1, user_id := 1 }
      "d" none 0 (by decide)

/-- C7 (counterexample): stopping the same project twice is not a full
no-op the second time: the second `stop` rewrites the persisted record's
`updated_at` timestamp (1 after the first stop, 2 after the second), so
the stored record — and with it the world — differs. -/
theorem c7_second_stop_mutates_record_cex :
    firstStop.2 =
      .ok { runningProject with status := "paused", updated_at := 1 } ∧
    secondStop.2 =
      .ok { runningProject with status := "paused", updated_at := 2 } ∧
    firstStop.1.projects.map Project.updated_at = [1] ∧
    secondStop.1.projects.map Project.updated_at = [2] ∧
    secondStop.1 ≠ firstStop.1 := by
  decide

/-- C7 (amended): after a first `stop`, a second `stop` leaves the
multiplexer state, the instance rows and every other table unchanged and
returns the same record — except that it refreshes the record's
`updated_at` timestamp (its status stays `paused`). -/
theorem c7_stop_stop_idempotent_except_timestamp
    (w : World) (uid pid t1 t2 : Nat) (w1 : World) (p1 : Project)
    (h1 : stopProject w uid pid t1 = (w1, .ok p1)) :
    (stopProject w1 uid pid t2).2 = .ok { p1 with updated_at := t2 } ∧
    (stopProject w1 uid pid t2).1.sessions = w1.sessions ∧
    (stopProject w1 uid pid t2).1.instances = w1.instances ∧
    (stopProject w1 uid pid t2).1.dirs = w1.dirs ∧
    (stopProject w1 uid pid t2).1.messages = w1.messages ∧
    (stopProject w1 uid pid t2).1.research = w1.research ∧
    (stopProject w1 uid pid t2).1.agents = w1.agents ∧
    (stopProject w1 uid pid t2).1.nextId = w1.nextId ∧
    (stopProject w1 uid pid t2).1.projects =
      w1.projects.map
        (fun q => if q.id = pid then { q with updated_at := t2 } else q) := by
  unfold stopProject at h1
  cases hfind : findProject w pid uid with
  | none => rw [hfind] at h1; simp at h1
  | some p =>
    rw [hfind] at h1
    have hps := List.find?_some hfind
    simp [decide_eq_true_eq] at hps
    obtain ⟨hpid, huid⟩ := hps
    have hmem : p ∈ w.projects := List.mem_of_find?_eq_some hfind
    have hw1 : w1 = { w with
        sessions := if p.tmux_session ≠ "" then
            killSession p.tmux_session w.sessions else w.sessions,
        instances := w.instances.map (stopInstance p.id t1),
        projects := w.projects.map (fun q => if q.id = p.id then
          { p with status := "paused", updated_at := t1 } else q) } := by
      have := congrArg Prod.fst h1
      simpa using this.symm
    have hp1 : p1 = { p with status := "paused", updated_at := t1 } := by
      have := congrArg Prod.snd h1
      simp at this
      exact this.symm
    have hfind2 : findProject w1 pid uid =
        some { p with status := "paused", updated_at := t1 } := by
      rw [hw1]
      show (w.projects.map (fun q => if q.id = p.id then
          { p with status := "paused", updated_at := t1 } else q)).find?
          (fun q => q.id = pid && q.user_id = uid) = _
      rw [hpid]
      exact findProject_after_update w.projects pid uid p _ hmem hpid rfl huid
    unfold stopProject
    rw [hfind2]
    subst hp1
    refine ⟨rfl, ?_, ?_, ?_, ?_, ?_, ?_, ?_, ?_⟩
    · show (if p.tmux_session ≠ "" then
          killSession p.tmux_session w1.sessions else w1.sessions) =
        w1.sessions
      by_cases htm : p.tmux_session = ""
      · simp [htm]
      · rw [hw1]
        simp [htm, killSession_idem]
    · show w1.instances.map (stopInstance p.id t2) = w1.instances
      rw [hw1]
      show (w.instances.map (stopInstance p.id t1)).map
          (stopInstance p.id t2) = _
      rw [List.map_map]
      exact List.map_congr_left
        (fun i _ => stopInstance_idem p.id t1 t2 i)
    · rfl
    · rfl
    · rfl
    · rfl
    · rfl
    · show w1.projects.map (fun q => if q.id = p.id then
          { p with status := "paused", updated_at := t2 } else q) = _
      apply List.map_congr_left
      intro q hq
      rw [hpid]
      by_cases hqid : q.id = pid
      · simp only [hqid, if_true]
        have hqp : q = { p with status := "paused", updated_at := t1 } := by
          rw [hw1] at hq
          simp at hq
          obtain ⟨q0, _, hq0⟩ := hq
          by_cases h0 : q0.id = p.id
          · rw [if_pos h0] at hq0; exact hq0.symm
          · rw [if_neg h0] at hq0
            rw [← hq0] at hqid
            rw [hpid] at h0
            exact absurd hqid h0
        rw [hqp]
      · simp [hqid]

theorem c7_stop_stop_idempotent_except_timestamp_witness :
    secondStop.2 =
      .ok { { runningProject with status := "paused", updated_at := 1 }
            with updated_at := 2 } ∧
    secondStop.1.sessions = firstStop.1.sessions ∧
    secondStop.1.instances = firstStop.1.instances :=
  have h := c7_stop_stop_idempotent_except_timestamp runningWorld 1 10 1 2
    firstStop.1 { runningProject with status := "paused", updated_at := 1 }
    (by decide)
  ⟨h.1, h.2.1, h.2.2.1⟩

/-- C9: when the one-shot CLI exits non-zero while handling a research
message, the triggering user message was stored before the subprocess
ran and remains stored, the failure is surfaced as an assistant
transcript row whose text carries the CLI error, and the session's
status afterwards is `idle`, not `thinking`. -/
theorem c9_cli_failure_surfaced
    (w : World) (user : UserRec) (sid : Nat) (content : String)
    (t1 t2 rc : Nat) (stderr res : String) (r : ResearchSession)
    (hfind : findResearch w sid user.id = some r)
    (hrc : rc ≠ 0) :
    ({ id := w.nextId, user_id := user.id, session_type := "research",
       session_id := sid, role := "user", content := content,
       created_at := t1 } : ChatMessage) ∈
        (sendMessage w user sid content t1).1.messages ∧
    ({ id := w.nextId, user_id := user.id, session_type := "research",
       session_id := sid, role := "user", content := content,
       created_at := t1 } : ChatMessage) ∈
        (processClaudeResponse (sendMessage w user sid content t1).1 sid
          user.id (runClaudeMessage rc stderr res) t2).messages ∧
    (∃ m ∈ (processClaudeResponse (sendMessage w user sid content t1).1 sid
          user.id (runClaudeMessage rc stderr res) t2).messages,
        m.session_type = "research" ∧ m.session_id = sid ∧
        m.role = "assistant" ∧
        m.content = "Error: " ++ ("Claude CLI failed (exit " ++
          toString rc ++ "): " ++ stderr)) ∧
    (∃ q ∈ (processClaudeResponse (sendMessage w user sid content t1).1 sid
          user.id (runClaudeMessage rc stderr res) t2).research,
        q.id = sid ∧ q.status = "idle") ∧
    (∀ q ∈ (processClaudeResponse (sendMessage w user sid content t1).1 sid
          user.id (runClaudeMessage rc stderr res) t2).research,
        q.id = sid → q.status ≠ "thinking") := by
  have hps := List.find?_some hfind
  simp [decide_eq_true_eq] at hps
  obtain ⟨hid, huid⟩ := hps
  subst hid
  have hmem : r ∈ w.research := List.mem_of_find?_eq_some hfind
  have hcli : runClaudeMessage rc stderr res =
      .error ("Claude CLI failed (exit " ++ toString rc ++ "): " ++
        stderr) := by
    simp [runClaudeMessage, hrc]
  refine ⟨?_, ?_, ?_, ?_, ?_⟩
  · simp [sendMessage, hfind]
  · simp [sendMessage, hfind, processClaudeResponse]
  · simp only [processClaudeResponse, hcli]
    exact ⟨_, List.mem_append_right _ (List.mem_singleton_self _),
      rfl, rfl, rfl, rfl⟩
  · refine ⟨{ r with status := "idle", updated_at := t2 }, ?_, rfl, rfl⟩
    simp only [processClaudeResponse, sendMessage, hfind]
    simp only [List.map_map, List.mem_map, Function.comp]
    refine ⟨r, hmem, ?_⟩
    simp
  · intro q hq hqid
    simp only [processClaudeResponse, sendMessage, hfind] at hq
    simp only [List.map_map, List.mem_map, Function.comp] at hq
    obtain ⟨q0, hq0mem, hq0⟩ := hq
    by_cases h0 : q0.id = r.id
    · simp [h0] at hq0
      rw [← hq0]
      intro hc
      have hne : ("idle" : String) ≠ "thinking" := by decide
      exact hne hc
    · simp [h0] at hq0
      rw [← hq0] at hqid
      exact absurd hqid h0

theorem c9_cli_failure_surfaced_witness :
    ({ id := 30, user_id := 1, session_type := "research",
       session_id := 20, role := "user", content := "look this up",
       created_at := 5 } : ChatMessage) ∈
        (sendMessage transcriptWorld userAlice 20 "look this up" 5).1.messages ∧
    (∃ q ∈ (processClaudeResponse
          (sendMessage transcriptWorld userAlice 20 "look this up" 5).1 20 1
          (runClaudeMessage 1 "boom" "") 6).research,
        q.id = 20 ∧ q.status = "idle") :=
  have h := c9_cli_failure_surfaced transcriptWorld userAlice 20
    "look this up" 5 6 1 "boom" "" topicResearch (by decide) (by decide)
  ⟨h.1, h.2.2.2.1⟩

theorem c10_whitespace_pane_is_busy_witness :
    claudeCodeWaitingForInput "" = false ∧
    claudeCodeWaitingForInput " \t\n  " = false ∧
    capturePane [("alice-web-app", "pane text")] "gone" = "" :=
  ⟨c10_whitespace_pane_is_busy.1 "" (by decide),
   c10_whitespace_pane_is_busy.1 " \t\n  " (by decide),
   c10_whitespace_pane_is_busy.2 [("alice-web-app", "pane text")] "gone"
     (by decide)⟩

end Autocode
